import Mathlib

/-!
Verification development for the FinOps-Copilot enrichment and recommendation
core (app/analytics.py and app/recommendations.py).

The two backing tables are modelled as lists of rows.  A raw cell of a numeric
column is `Option ℚ` (`none` = a value `pd.to_numeric(..., errors="coerce")`
cannot parse, which the source then fills with `0.0`); a raw `resource_id`
cell is modelled by its string form after `astype(str)` (a missing value in a
numeric-typed id column prints as `"nan"`, which is exactly the corruption the
source's normalisation guards against).

Conventions kept throughout:
* pandas `merge` treats NaN join keys as equal to each other: the
  `validate="m:1"` uniqueness check counts two NaN keys as duplicates, and a
  left merge matches a NaN key on the left to a NaN key on the right.  The
  embedding uses plain equality on `Option String` keys for both.
* pandas `groupby` drops groups whose key contains a null; the embedding
  extracts keys with `filterMap` over `resource_id`.  pandas additionally
  sorts group keys (`sort=True`); the embedding keeps first-appearance order,
  an order no property below observes.
* pandas `Series.sum()` skips NaN entries; where a summed column can hold
  NaN (the spike detector's joined `cost`), the embedding sums an
  `Option ℚ` with `none` contributing `0`.
* Python `round(x, d)` is modelled with Mathlib's `round` (half away from
  zero at ties instead of Python's half-to-even; no property below depends
  on behaviour at an exact tie).
-/

namespace FinOps

/-- ASCII whitespace, as stripped by `str.strip()` on the data this system
ingests. -/
def isWs (c : Char) : Bool := c = ' ' || c = '\t' || c = '\n' || c = '\r'

/-- Strip leading and trailing whitespace from a list of characters. -/
def trimChars (l : List Char) : List Char :=
  ((l.dropWhile isWs).reverse.dropWhile isWs).reverse

/-- `.str.strip()` on the string form of a cell. -/
def strStrip (s : String) : String := String.mk (trimChars s.data)

/-- Lexicographic comparison of character lists by code point, the order
Python uses on `str`. -/
def charListLt : List Char → List Char → Bool
  | [], [] => false
  | [], _ :: _ => true
  | _ :: _, [] => false
  | a :: as, b :: bs =>
    if a.toNat < b.toNat then true
    else if b.toNat < a.toNat then false
    else charListLt as bs

def strLt (s t : String) : Bool := charListLt s.data t.data

def strLe (s t : String) : Bool := !(strLt t s)

/-- `Series.max()` over a string column (lexicographic maximum). -/
def maxString : List String → Option String
  | [] => none
  | s :: rest => some (rest.foldl (fun acc m => if strLt acc m then m else acc) s)

/-- One raw row of the `billing` table (schema of `app/models.py`). -/
structure BillingRow where
  invoice_month : String
  account_id : String := ""
  subscription : String := ""
  service : String := ""
  resource_group : String := ""
  resource_id : String
  region : String := ""
  usage_qty : Option ℚ
  unit_cost : Option ℚ
  cost : Option ℚ
deriving DecidableEq

/-- One raw row of the `resources` table. -/
structure ResourceRow where
  resource_id : String
  owner : Option String
  env : Option String
  tags_json : String := ""
deriving DecidableEq

/-- A billing row after `normalize_resource_ids` and numeric coercion. -/
structure NBillingRow where
  invoice_month : String
  account_id : String := ""
  subscription : String := ""
  service : String := ""
  resource_group : String := ""
  resource_id : Option String
  region : String := ""
  usage_qty : ℚ
  unit_cost : ℚ
  cost : ℚ
deriving DecidableEq

/-- A resource row after `normalize_resource_ids`. -/
structure NResourceRow where
  resource_id : Option String
  owner : Option String
  env : Option String
  tags_json : String := ""
deriving DecidableEq

/-- The output row of `enrich_billing`: billing left-joined to resources,
`owner`/`env` nulls filled with `"unassigned"`. -/
structure EnrichedRow where
  invoice_month : String
  account_id : String := ""
  subscription : String := ""
  service : String := ""
  resource_group : String := ""
  resource_id : Option String
  region : String := ""
  usage_qty : ℚ
  unit_cost : ℚ
  cost : ℚ
  owner : String
  env : String
  tags_json : Option String := none
deriving DecidableEq

/-- `normalize_resource_ids` on one cell: cast to string, strip whitespace,
then the string `"nan"` becomes null.  (The source's inline comment claims
empty strings also become NaN; the code only tests for `"nan"`.) -/
def normalizeId (s : String) : Option String :=
  if strStrip s = "nan" then none else some (strStrip s)

/-- `pd.to_numeric(..., errors="coerce").fillna(0.0)` on one cell. -/
def toNum (v : Option ℚ) : ℚ := v.getD 0

def normalizeBillingRow (b : BillingRow) : NBillingRow :=
  { invoice_month := b.invoice_month, account_id := b.account_id,
    subscription := b.subscription, service := b.service,
    resource_group := b.resource_group, region := b.region,
    resource_id := normalizeId b.resource_id,
    usage_qty := toNum b.usage_qty, unit_cost := toNum b.unit_cost,
    cost := toNum b.cost }

def normalizeResourceRow (r : ResourceRow) : NResourceRow :=
  { resource_id := normalizeId r.resource_id, owner := r.owner, env := r.env,
    tags_json := r.tags_json }

/-- The normalized join keys of the resource-metadata table, the column
`validate="m:1"` checks for uniqueness. -/
def resourceKeys (resources : List ResourceRow) : List (Option String) :=
  (resources.map normalizeResourceRow).map (fun r => r.resource_id)

/-- The resource rows a left merge matches against one billing row (pandas
matches NaN keys to each other, so `none = none` joins). -/
def joinMatches (rs : List NResourceRow) (b : NBillingRow) : List NResourceRow :=
  rs.filter (fun r => r.resource_id = b.resource_id)

/-- The enriched row for a billing row with no metadata match: the join
leaves `owner`/`env` null, then `fillna` writes `"unassigned"`. -/
def mkUnmatched (b : NBillingRow) : EnrichedRow :=
  { invoice_month := b.invoice_month, account_id := b.account_id,
    subscription := b.subscription, service := b.service,
    resource_group := b.resource_group, region := b.region,
    resource_id := b.resource_id, usage_qty := b.usage_qty,
    unit_cost := b.unit_cost, cost := b.cost,
    owner := "unassigned", env := "unassigned", tags_json := none }

/-- The enriched row for a billing row matched to one metadata row. -/
def mkMatched (b : NBillingRow) (r : NResourceRow) : EnrichedRow :=
  { invoice_month := b.invoice_month, account_id := b.account_id,
    subscription := b.subscription, service := b.service,
    resource_group := b.resource_group, region := b.region,
    resource_id := b.resource_id, usage_qty := b.usage_qty,
    unit_cost := b.unit_cost, cost := b.cost,
    owner := r.owner.getD "unassigned", env := r.env.getD "unassigned",
    tags_json := some r.tags_json }

/-- The rows a left merge produces for one billing row: one per matching
resource row, or a single null-filled row when nothing matches. -/
def leftJoinRow (rs : List NResourceRow) (b : NBillingRow) : List EnrichedRow :=
  match joinMatches rs b with
  | [] => [mkUnmatched b]
  | m :: mrest => (m :: mrest).map (mkMatched b)

/-- `enrich_billing` of `app/analytics.py`: normalize ids on both sides,
coerce the numeric columns, left-join with `validate="m:1"` (the merge
aborts when the resource key column has a duplicate, nulls included),
then fill missing `owner`/`env` with `"unassigned"`.  The spec's
`DataIntegrityError` is the error value. -/
def enrich_billing (billing : List BillingRow) (resources : List ResourceRow) :
    Except String (List EnrichedRow) :=
  let nb := billing.map normalizeBillingRow
  let nr := resources.map normalizeResourceRow
  if (nr.map (fun r => r.resource_id)).Nodup then
    Except.ok (nb.flatMap (leftJoinRow nr))
  else
    Except.error "DataIntegrityError"

/-- Python `round(q, d)` (see header note on tie behaviour). -/
def roundTo (d : ℕ) (q : ℚ) : ℚ := (round (q * (10 : ℚ) ^ d) : ℤ) / (10 : ℚ) ^ d

def sumCost (l : List EnrichedRow) : ℚ := (l.map (fun r => r.cost)).sum

def monthRows (df : List EnrichedRow) (month : String) : List EnrichedRow :=
  df.filter (fun r => r.invoice_month = month)

/-- Result shape of `owner_coverage`. -/
structure Coverage where
  total_cost : ℚ
  assigned_cost : ℚ
  coverage_pct : ℚ
deriving DecidableEq

/-- The body of `owner_coverage` on an enriched frame. -/
def coverageOf (df : List EnrichedRow) (month : String) : Coverage :=
  let dfm := monthRows df month
  let total := sumCost dfm
  let assigned := sumCost (dfm.filter (fun r => r.owner ≠ "unassigned"))
  { total_cost := total, assigned_cost := assigned,
    coverage_pct := if 0 < total then roundTo 4 (assigned / total) else 0 }

def owner_coverage (billing : List BillingRow) (resources : List ResourceRow)
    (month : String) : Except String Coverage :=
  (enrich_billing billing resources).map (fun df => coverageOf df month)

/-- Insert into a list sorted by the boolean relation `le`. -/
def insertLe (le : α → α → Bool) (x : α) : List α → List α
  | [] => [x]
  | y :: ys => if le x y then x :: y :: ys else y :: insertLe le x ys

/-- Stable insertion sort (models the frame sorts of the source; no property
below observes the relative order of incomparable rows). -/
def sortLe (le : α → α → Bool) (l : List α) : List α := l.foldr (insertLe le) []

def dedupFirstAux [DecidableEq α] (seen : List α) : List α → List α
  | [] => []
  | x :: xs =>
    if x ∈ seen then dedupFirstAux seen xs else x :: dedupFirstAux (x :: seen) xs

/-- Distinct group keys in order of first appearance (see header note on
pandas sorting group keys). -/
def dedupFirst [DecidableEq α] (l : List α) : List α := dedupFirstAux [] l

/-- `groupby(...)["unit_cost"].shift(1)`: pair each element with the value of
the previous element of the same key in frame order. -/
def shiftPrevAux [DecidableEq β] (key : α → β) (val : α → ℚ) (seen : List α) :
    List α → List (α × Option ℚ)
  | [] => []
  | x :: xs =>
    (x, ((seen.filter (fun y => key y = key x)).head?).map val) ::
      shiftPrevAux key val (x :: seen) xs

def shiftPrev [DecidableEq β] (key : α → β) (val : α → ℚ) (l : List α) :
    List (α × Option ℚ) := shiftPrevAux key val [] l

/-- Mean of `unit_cost` over a group of rows. -/
def meanUnitCost (g : List EnrichedRow) : ℚ :=
  (g.map (fun r => r.unit_cost)).sum / (g.length : ℚ)

/-- One row of the `unit_cost_changes` aggregation: mean `unit_cost` per
(`resource_id`, `invoice_month`); rows with a null id are dropped by
`groupby`. -/
structure UccGroup where
  resource_id : String
  invoice_month : String
  unit_cost : ℚ
deriving DecidableEq

def uccAgg (df : List EnrichedRow) : List UccGroup :=
  let keys := dedupFirst (df.filterMap
    (fun r => r.resource_id.map (fun id => (id, r.invoice_month))))
  keys.map (fun k =>
    { resource_id := k.1, invoice_month := k.2,
      unit_cost := meanUnitCost (df.filter
        (fun r => r.resource_id = some k.1 ∧ r.invoice_month = k.2)) })

/-- `sort_values(["resource_id", "invoice_month"])`. -/
def uccLe (a b : UccGroup) : Bool :=
  if a.resource_id = b.resource_id then strLe a.invoice_month b.invoice_month
  else strLt a.resource_id b.resource_id

/-- A month-over-month unit-cost comparison row surviving
`dropna(subset=["prev_unit_cost"])` and the zero-previous filter. -/
structure UccRow where
  resource_id : String
  invoice_month : String
  unit_cost : ℚ
  prev_unit_cost : ℚ
  pct_change : ℚ
deriving DecidableEq

/-- The candidate rows of `unit_cost_changes`, before the threshold filter. -/
def uccRows (df : List EnrichedRow) : List UccRow :=
  (shiftPrev (fun g : UccGroup => g.resource_id) (fun g => g.unit_cost)
      (sortLe uccLe (uccAgg df))).filterMap
    (fun p => match p.2 with
      | none => none
      | some prev =>
        if prev ≠ 0 then
          some { resource_id := p.1.resource_id,
                 invoice_month := p.1.invoice_month,
                 unit_cost := p.1.unit_cost, prev_unit_cost := prev,
                 pct_change := (p.1.unit_cost - prev) / prev }
        else none)

/-- `sort_values("pct_change", ascending=False)`. -/
def uccDesc (a b : UccRow) : Bool := decide (b.pct_change ≤ a.pct_change)

/-- `unit_cost_changes` of `app/analytics.py`: flag candidate rows whose
absolute percentage change is at least the threshold, round the change to 4
decimals, sort descending. -/
def unit_cost_changes (billing : List BillingRow) (resources : List ResourceRow)
    (threshold_pct : ℚ) : Except String (List UccRow) :=
  (enrich_billing billing resources).map (fun df =>
    let flagged := (uccRows df).filter (fun r => threshold_pct ≤ |r.pct_change|)
    sortLe uccDesc (flagged.map (fun r => { r with pct_change := roundTo 4 r.pct_change })))

/-- `df["invoice_month"].max()`. -/
def latestMonth (df : List EnrichedRow) : Option String :=
  maxString (df.map (fun r => r.invoice_month))

/-- The rows of the most recent month (used as the scope of the idle and
tagging detectors and as `latest_costs` in the spike detector). -/
def recentRows (df : List EnrichedRow) : List EnrichedRow :=
  match latestMonth df with
  | none => []
  | some m => df.filter (fun r => r.invoice_month = m)

def maxQ : List ℚ → Option ℚ
  | [] => none
  | x :: xs => some (xs.foldl (fun a b => if a < b then b else a) x)

/-- `recent_df["usage_qty"].max()`. -/
def usageMax (rows : List EnrichedRow) : ℚ :=
  (maxQ (rows.map (fun r => r.usage_qty))).getD 0

/-- The comparison `usage / umax < t` as pandas floats evaluate it.  When
`umax = 0` the quotient is NaN (for `usage = 0`), `+inf` (for positive
`usage`) or `-inf` (negative `usage`); NaN and `+inf` compare false against
any threshold and `-inf` compares true, so the comparison reduces to
`usage < 0`.  There is no guard in the source: the division is taken even
when the maximum is zero. -/
def utilLT (usage umax t : ℚ) : Bool :=
  if umax = 0 then decide (usage < 0) else decide (usage / umax < t)

/-- The rows `find_idle_resources` flags:
`(utilization < usage_threshold) & (cost > cost_threshold)` over the latest
month. -/
def idleFlagged (df : List EnrichedRow) (usage_threshold cost_threshold : ℚ) :
    List EnrichedRow :=
  let recent := recentRows df
  let umax := usageMax recent
  recent.filter (fun r =>
    utilLT r.usage_qty umax usage_threshold && decide (cost_threshold < r.cost))

/-- One element of the idle recommendation's `resources` list (the dict key
for `env` is spelled `environment` in the source). -/
structure IdleEntry where
  resource_id : String
  owner : String
  env : String
  current_monthly_cost : ℚ
  utilization : ℚ
  potential_savings : ℚ
deriving DecidableEq

def idleKeys (idle : List EnrichedRow) : List (String × String × String) :=
  dedupFirst (idle.filterMap
    (fun r => r.resource_id.map (fun id => (id, r.owner, r.env))))

def idleGroup (idle : List EnrichedRow) (k : String × String × String) :
    List EnrichedRow :=
  idle.filter (fun r => r.resource_id = some k.1 ∧ r.owner = k.2.1 ∧ r.env = k.2.2)

def idleGroupCost (idle : List EnrichedRow) (k : String × String × String) : ℚ :=
  sumCost (idleGroup idle k)

/-- Mean utilization of a group.  With `umax = 0` the source's column holds
NaN or `-inf` here; the embedding's total division returns junk values in
that case, and no property below reads this field then. -/
def idleGroupUtil (idle : List EnrichedRow) (umax : ℚ)
    (k : String × String × String) : ℚ :=
  ((idleGroup idle k).map (fun r => r.usage_qty / umax)).sum /
    ((idleGroup idle k).length : ℚ)

def idleEntries (df : List EnrichedRow) (usage_threshold cost_threshold : ℚ) :
    List IdleEntry :=
  let idle := idleFlagged df usage_threshold cost_threshold
  let umax := usageMax (recentRows df)
  (idleKeys idle).map (fun k =>
    { resource_id := k.1, owner := k.2.1, env := k.2.2,
      current_monthly_cost := roundTo 2 (idleGroupCost idle k),
      utilization := roundTo 1 (idleGroupUtil idle umax k * 100),
      potential_savings := roundTo 2 (idleGroupCost idle k * (7 / 10)) })

/-- `idle_summary["cost"].sum() * 0.7` (rows whose id is null are absent from
the summary, hence from this total). -/
def idleRawSavings (df : List EnrichedRow) (usage_threshold cost_threshold : ℚ) : ℚ :=
  ((idleKeys (idleFlagged df usage_threshold cost_threshold)).map
    (fun k => idleGroupCost (idleFlagged df usage_threshold cost_threshold) k)).sum * (7 / 10)

/-- One element of the spike recommendation's `resources` list.  The joined
`cost` is `none` when the resource has no row in the globally latest month
(pandas NaN); `current_monthly_cost` and `potential_savings` are then NaN as
well.  The source also carries a display string `unit_cost_increase`
(`round(pct*100, 1)` with a percent sign), modelled by its numeric part. -/
structure SpikeEntry where
  resource_id : String
  owner : String
  env : String
  unit_cost_increase : ℚ
  pct_change : ℚ
  current_monthly_cost : Option ℚ
  potential_savings : Option ℚ
deriving DecidableEq

/-- Mean `unit_cost` per (`resource_id`, `invoice_month`, `owner`, `env`). -/
structure SpikeGroup where
  resource_id : String
  invoice_month : String
  owner : String
  env : String
  unit_cost : ℚ
deriving DecidableEq

def spikeAgg (df : List EnrichedRow) : List SpikeGroup :=
  let keys := dedupFirst (df.filterMap
    (fun r => r.resource_id.map (fun id => (id, r.invoice_month, r.owner, r.env))))
  keys.map (fun k =>
    { resource_id := k.1, invoice_month := k.2.1, owner := k.2.2.1, env := k.2.2.2,
      unit_cost := meanUnitCost (df.filter (fun r =>
        r.resource_id = some k.1 ∧ r.invoice_month = k.2.1 ∧
          r.owner = k.2.2.1 ∧ r.env = k.2.2.2)) })

def spikeLe (a b : SpikeGroup) : Bool :=
  if a.resource_id = b.resource_id then strLe a.invoice_month b.invoice_month
  else strLt a.resource_id b.resource_id

/-- A month-over-month comparison row of the spike detector surviving the
`dropna` and the zero-previous filter. -/
structure SpikeRow where
  resource_id : String
  invoice_month : String
  owner : String
  env : String
  unit_cost : ℚ
  prev_unit_cost : ℚ
  pct_change : ℚ
deriving DecidableEq

def spikeRowsAll (df : List EnrichedRow) : List SpikeRow :=
  (shiftPrev (fun g : SpikeGroup => g.resource_id) (fun g => g.unit_cost)
      (sortLe spikeLe (spikeAgg df))).filterMap
    (fun p => match p.2 with
      | none => none
      | some prev =>
        if prev ≠ 0 then
          some { resource_id := p.1.resource_id,
                 invoice_month := p.1.invoice_month,
                 owner := p.1.owner, env := p.1.env,
                 unit_cost := p.1.unit_cost, prev_unit_cost := prev,
                 pct_change := (p.1.unit_cost - prev) / prev }
        else none)

/-- `agg[agg["pct_change"] >= threshold_pct]`: one-directional. -/
def spikeFlagged (df : List EnrichedRow) (threshold_pct : ℚ) : List SpikeRow :=
  (spikeRowsAll df).filter (fun r => decide (threshold_pct ≤ r.pct_change))

/-- The rows a left merge on `resource_id` produces for one flagged spike
row: one per matching latest-month row, or a single row with NaN cost when
none match. -/
def spikeJoinRow (latest : List EnrichedRow) (s : SpikeRow) :
    List (SpikeRow × Option ℚ) :=
  match latest.filter (fun r => r.resource_id = some s.resource_id) with
  | [] => [(s, none)]
  | m :: mrest => (m :: mrest).map (fun m => (s, some m.cost))

/-- The left merge of the flagged rows with
`latest_costs[["resource_id", "cost"]]` on `resource_id`. -/
def spikeMerged (df : List EnrichedRow) (threshold_pct : ℚ) :
    List (SpikeRow × Option ℚ) :=
  (spikeFlagged df threshold_pct).flatMap (spikeJoinRow (recentRows df))

/-- `(spikes["cost"] * spikes["pct_change"]).sum() * 0.5`; NaN products are
skipped by the pandas sum. -/
def spikeRawSavings (df : List EnrichedRow) (threshold_pct : ℚ) : ℚ :=
  ((spikeMerged df threshold_pct).map (fun p =>
    match p.2 with
    | some c => c * p.1.pct_change
    | none => 0)).sum * (1 / 2)

def spikeEntries (df : List EnrichedRow) (threshold_pct : ℚ) : List SpikeEntry :=
  (spikeMerged df threshold_pct).map (fun p =>
    { resource_id := p.1.resource_id, owner := p.1.owner, env := p.1.env,
      unit_cost_increase := roundTo 1 (p.1.pct_change * 100),
      pct_change := p.1.pct_change,
      current_monthly_cost := p.2.map (fun c => roundTo 2 c),
      potential_savings := p.2.map (fun c => roundTo 2 (c * p.1.pct_change * (1 / 2))) })

/-- One element of the tagging recommendation's `resources` list. -/
structure TaggingEntry where
  resource_id : String
  owner_tag : String
  env_tag : String
  monthly_unattributed_cost : ℚ
  potential_savings : ℚ
deriving DecidableEq

def untaggedRows (df : List EnrichedRow) : List EnrichedRow :=
  (recentRows df).filter (fun r => r.owner = "unassigned" ∨ r.env = "unassigned")

def tagKeys (untagged : List EnrichedRow) : List String :=
  dedupFirst (untagged.filterMap (fun r => r.resource_id))

def tagGroup (untagged : List EnrichedRow) (id : String) : List EnrichedRow :=
  untagged.filter (fun r => r.resource_id = some id)

/-- `"missing" if all(x == "unassigned") else "partial"`. -/
def tagStatus (vals : List String) : String :=
  if vals.all (fun v => v = "unassigned") then "missing" else "partial"

def taggingEntries (df : List EnrichedRow) : List TaggingEntry :=
  let untagged := untaggedRows df
  (tagKeys untagged).map (fun id =>
    { resource_id := id,
      owner_tag := tagStatus ((tagGroup untagged id).map (fun r => r.owner)),
      env_tag := tagStatus ((tagGroup untagged id).map (fun r => r.env)),
      monthly_unattributed_cost := roundTo 2 (sumCost (tagGroup untagged id)),
      potential_savings := roundTo 2 (sumCost (tagGroup untagged id) * (1 / 5)) })

def taggingRawSavings (df : List EnrichedRow) : ℚ :=
  ((tagKeys (untaggedRows df)).map
    (fun id => sumCost (tagGroup (untaggedRows df) id))).sum * (1 / 5)

/-- The resource-detail record of a `Recommendation`; its schema varies by
detector, modelled as a sum. -/
inductive ResourceEntry where
  | idle (e : IdleEntry)
  | spike (e : SpikeEntry)
  | tagging (e : TaggingEntry)
deriving DecidableEq

/-- The `Recommendation` object of `app/recommendations.py`
(`estimated_savings` is the raw attribute; rounding happens in `to_dict`). -/
structure Recommendation where
  rec_type : String
  resources : List ResourceEntry
  estimated_savings : ℚ
  actions : List String
deriving DecidableEq

def idleActions : List String :=
  ["Review and terminate resources with 0% utilization",
   "Right-size resources with low utilization",
   "Implement auto-scaling where applicable",
   "Enable automated start/stop schedules for non-production resources"]

def spikeActions : List String :=
  ["Investigate recent configuration changes",
   "Review resource pricing tier changes",
   "Check for unexpected usage patterns",
   "Consider moving to reserved instances or savings plans",
   "Evaluate alternative service options"]

def taggingActions : List String :=
  ["Implement mandatory tagging policy",
   "Add missing owner tags",
   "Add missing environment tags",
   "Set up automated tag compliance checks",
   "Create tag inheritance rules where applicable"]

/-- `find_idle_resources` of `app/recommendations.py` (the source's guard for
a missing `usage_qty` column never fires on this schema and is not
modelled). -/
def find_idle_resources (billing : List BillingRow) (resources : List ResourceRow)
    (usage_threshold cost_threshold : ℚ) : Except String (List Recommendation) :=
  (enrich_billing billing resources).map (fun df =>
    if idleFlagged df usage_threshold cost_threshold = [] then []
    else
      [{ rec_type := "idle_resources",
         resources := (idleEntries df usage_threshold cost_threshold).map ResourceEntry.idle,
         estimated_savings := idleRawSavings df usage_threshold cost_threshold,
         actions := idleActions }])

/-- `find_cost_spikes` of `app/recommendations.py`. -/
def find_cost_spikes (billing : List BillingRow) (resources : List ResourceRow)
    (threshold_pct : ℚ) : Except String (List Recommendation) :=
  (enrich_billing billing resources).map (fun df =>
    if spikeFlagged df threshold_pct = [] then []
    else
      [{ rec_type := "cost_spikes",
         resources := (spikeEntries df threshold_pct).map ResourceEntry.spike,
         estimated_savings := spikeRawSavings df threshold_pct,
         actions := spikeActions }])

/-- `find_tagging_gaps` of `app/recommendations.py`. -/
def find_tagging_gaps (billing : List BillingRow) (resources : List ResourceRow) :
    Except String (List Recommendation) :=
  (enrich_billing billing resources).map (fun df =>
    if untaggedRows df = [] then []
    else
      [{ rec_type := "tagging_gaps",
         resources := (taggingEntries df).map ResourceEntry.tagging,
         estimated_savings := taggingRawSavings df,
         actions := taggingActions }])

/-- The dict `Recommendation.to_dict` returns. -/
structure RecommendationOut where
  rec_type : String
  resources : List ResourceEntry
  estimated_monthly_savings : ℚ
  recommended_actions : List String
deriving DecidableEq

def Recommendation.to_dict (r : Recommendation) : RecommendationOut :=
  { rec_type := r.rec_type, resources := r.resources,
    estimated_monthly_savings := roundTo 2 r.estimated_savings,
    recommended_actions := r.actions }

/-- The dict `get_all_recommendations` returns. -/
structure RecReport where
  total_estimated_monthly_savings : ℚ
  recommendations : List RecommendationOut
deriving DecidableEq

/-- `get_all_recommendations` of `app/recommendations.py`: takes no
parameters and runs the three detectors at their hard-coded defaults
(`0.1`, `100` for idle, `0.3` for spikes); the total is the rounded sum of
the raw `estimated_savings` attributes. -/
def get_all_recommendations (billing : List BillingRow) (resources : List ResourceRow) :
    Except String RecReport := do
  let li ← find_idle_resources billing resources (1 / 10) 100
  let ls ← find_cost_spikes billing resources (3 / 10)
  let lg ← find_tagging_gaps billing resources
  let allRecs := li ++ ls ++ lg
  pure { total_estimated_monthly_savings :=
           roundTo 2 ((allRecs.map (fun r => r.estimated_savings)).sum),
         recommendations := allRecs.map Recommendation.to_dict }

/-- Modelled from the spec: the spec's interface table
(`get_all_recommendations() | optional per-detector thresholds | ...`) says
the aggregator accepts per-detector thresholds; this variant follows the
spec's words and threads them to the detectors, for comparison with the
source's parameterless `get_all_recommendations`. -/
def get_all_recommendations_spec (usage_threshold cost_threshold spike_threshold : ℚ)
    (billing : List BillingRow) (resources : List ResourceRow) :
    Except String RecReport := do
  let li ← find_idle_resources billing resources usage_threshold cost_threshold
  let ls ← find_cost_spikes billing resources spike_threshold
  let lg ← find_tagging_gaps billing resources
  let allRecs := li ++ ls ++ lg
  pure { total_estimated_monthly_savings :=
           roundTo 2 ((allRecs.map (fun r => r.estimated_savings)).sum),
         recommendations := allRecs.map Recommendation.to_dict }

/-! ### Concrete datasets used by the claim theorems below -/

/-- A one-row billing table used as concrete input below. -/
def c2bill : List BillingRow :=
  [{ invoice_month := "2025-01", resource_id := "a",
     usage_qty := some 1, unit_cost := some 5, cost := some 5 }]

/-- Billing table whose one month has a negative total cost: an assigned row
of cost `3` and an unassigned row of cost `-5`. -/
def c3bill : List BillingRow :=
  [{ invoice_month := "2025-01", resource_id := "a",
     usage_qty := some 1, unit_cost := some 3, cost := some 3 },
   { invoice_month := "2025-01", resource_id := "b",
     usage_qty := some 1, unit_cost := some 5, cost := some (-5) }]

def c3res : List ResourceRow :=
  [{ resource_id := "a", owner := some "team1", env := some "prod" }]

/-- The enriched frame of `c2bill` joined to an empty resource table. -/
def c3wdf : List EnrichedRow :=
  [{ invoice_month := "2025-01", resource_id := some "a", usage_qty := 1,
     unit_cost := 5, cost := 5, owner := "unassigned", env := "unassigned" }]

/-- A billing row whose `resource_id` is whitespace only. -/
def c7bill : List BillingRow :=
  [{ invoice_month := "2025-01", resource_id := "   ",
     usage_qty := some 1, unit_cost := some 1, cost := some 1 }]

/-- A latest-month dataset in which every row has `usage_qty = 0`: the
utilization denominator `max(usage_qty)` is zero. -/
def c5bill : List BillingRow :=
  [{ invoice_month := "2025-01", resource_id := "z",
     usage_qty := some 0, unit_cost := some 30, cost := some 500 }]

/-- Two latest-month rows: the idle one with zero usage and cost `500`, and a
busy one giving a positive usage maximum. -/
def c5wbill : List BillingRow :=
  [{ invoice_month := "2025-01", resource_id := "z",
     usage_qty := some 0, unit_cost := some 30, cost := some 500 },
   { invoice_month := "2025-01", resource_id := "w",
     usage_qty := some 5, unit_cost := some 1, cost := some 5 }]

/-- The zero-usage enriched row of `c5wbill`. -/
def c5row : EnrichedRow :=
  { invoice_month := "2025-01", resource_id := some "z", usage_qty := 0,
    unit_cost := 30, cost := 500, owner := "unassigned", env := "unassigned" }

/-- The enriched frame of `c5wbill` with empty metadata. -/
def c5wdf : List EnrichedRow :=
  [c5row,
   { invoice_month := "2025-01", resource_id := some "w", usage_qty := 5,
     unit_cost := 1, cost := 5, owner := "unassigned", env := "unassigned" }]

/-- A resource whose unit cost halves month over month, with cost data in
both months. -/
def c6bill : List BillingRow :=
  [{ invoice_month := "2025-01", resource_id := "r",
     usage_qty := some 1, unit_cost := some 4, cost := some 8 },
   { invoice_month := "2025-02", resource_id := "r",
     usage_qty := some 1, unit_cost := some 2, cost := some 2 }]

/-- The enriched frame of `c6bill` with empty metadata. -/
def c6df : List EnrichedRow :=
  [{ invoice_month := "2025-01", resource_id := some "r", usage_qty := 1,
     unit_cost := 4, cost := 8, owner := "unassigned", env := "unassigned" },
   { invoice_month := "2025-02", resource_id := some "r", usage_qty := 1,
     unit_cost := 2, cost := 2, owner := "unassigned", env := "unassigned" }]

/-- A latest month whose maximum usage is zero: one zero-usage row and one
negative-usage row above the cost threshold. -/
def c9bill : List BillingRow :=
  [{ invoice_month := "2025-01", resource_id := "p",
     usage_qty := some 0, unit_cost := some 1, cost := some 50 },
   { invoice_month := "2025-01", resource_id := "q",
     usage_qty := some (-3), unit_cost := some 1, cost := some 500 }]

/-- The enriched frame of `c9bill` with empty metadata. -/
def c9df : List EnrichedRow :=
  [{ invoice_month := "2025-01", resource_id := some "p", usage_qty := 0,
     unit_cost := 1, cost := 50, owner := "unassigned", env := "unassigned" },
   { invoice_month := "2025-01", resource_id := some "q", usage_qty := -3,
     unit_cost := 1, cost := 500, owner := "unassigned", env := "unassigned" }]

/-- A unit cost jumping from 1 to 4 (`pct_change = 3`), latest cost 100. -/
def c4bill : List BillingRow :=
  [{ invoice_month := "2025-01", resource_id := "r",
     usage_qty := some 1, unit_cost := some 1, cost := some 100 },
   { invoice_month := "2025-02", resource_id := "r",
     usage_qty := some 1, unit_cost := some 4, cost := some 100 }]

/-- The enriched frame of `c4bill` with empty metadata. -/
def c4df : List EnrichedRow :=
  [{ invoice_month := "2025-01", resource_id := some "r", usage_qty := 1,
     unit_cost := 1, cost := 100, owner := "unassigned", env := "unassigned" },
   { invoice_month := "2025-02", resource_id := some "r", usage_qty := 1,
     unit_cost := 4, cost := 100, owner := "unassigned", env := "unassigned" }]

/-- Negative costs above a negative cost threshold: the idle detector's
flagged resource has cost `-100`. -/
def c4bill2 : List BillingRow :=
  [{ invoice_month := "2025-01", resource_id := "x",
     usage_qty := some 0, unit_cost := some 1, cost := some (-100) },
   { invoice_month := "2025-01", resource_id := "y",
     usage_qty := some 10, unit_cost := some 1, cost := some (-300) }]

/-- The enriched frame of `c4bill2` with empty metadata. -/
def c4df2 : List EnrichedRow :=
  [{ invoice_month := "2025-01", resource_id := some "x", usage_qty := 0,
     unit_cost := 1, cost := -100, owner := "unassigned", env := "unassigned" },
   { invoice_month := "2025-01", resource_id := some "y", usage_qty := 10,
     unit_cost := 1, cost := -300, owner := "unassigned", env := "unassigned" }]

/-- A non-negative-cost frame on which both detectors fire: resource `"s"`
doubles its unit cost (`pct_change = 1 ≤ 2`, latest cost `100`) and resource
`"i"` sits idle (`usage 0`, cost `200`) in the latest month next to a busy
row giving a positive usage maximum. -/
def c4wdf : List EnrichedRow :=
  [{ invoice_month := "2025-01", resource_id := some "s", usage_qty := 1,
     unit_cost := 1, cost := 100, owner := "unassigned", env := "unassigned" },
   { invoice_month := "2025-02", resource_id := some "s", usage_qty := 5,
     unit_cost := 2, cost := 100, owner := "unassigned", env := "unassigned" },
   { invoice_month := "2025-02", resource_id := some "i", usage_qty := 0,
     unit_cost := 1, cost := 200, owner := "unassigned", env := "unassigned" }]

/-- An idle resource of cost `150` (flagged at the default `cost_threshold =
100`, not at `1000`) next to a busy cheap one; both are untagged. -/
def c8bill : List BillingRow :=
  [{ invoice_month := "2025-01", resource_id := "a",
     usage_qty := some 0, unit_cost := some 1, cost := some 150 },
   { invoice_month := "2025-01", resource_id := "b",
     usage_qty := some 10, unit_cost := some 1, cost := some 50 }]

/-- The enriched frame of `c8bill` with empty metadata. -/
def c8df : List EnrichedRow :=
  [{ invoice_month := "2025-01", resource_id := some "a", usage_qty := 0,
     unit_cost := 1, cost := 150, owner := "unassigned", env := "unassigned" },
   { invoice_month := "2025-01", resource_id := some "b", usage_qty := 10,
     unit_cost := 1, cost := 50, owner := "unassigned", env := "unassigned" }]

/-! ### Helper lemmas -/

theorem mem_insertLe (le : α → α → Bool) (x a : α) (l : List α) :
    a ∈ insertLe le x l ↔ a = x ∨ a ∈ l := by
  induction l with
  | nil => simp [insertLe]
  | cons y ys ih =>
    simp only [insertLe]
    split
    · simp [or_comm, or_assoc, or_left_comm]
    · simp only [List.mem_cons, ih]
      tauto

theorem mem_sortLe (le : α → α → Bool) (a : α) (l : List α) :
    a ∈ sortLe le l ↔ a ∈ l := by
  induction l with
  | nil => simp [sortLe]
  | cons y ys ih =>
    unfold sortLe at ih ⊢
    rw [List.foldr_cons, mem_insertLe, ih, List.mem_cons]

theorem mem_dedupFirstAux [DecidableEq α] (a : α) (seen l : List α) :
    a ∈ dedupFirstAux seen l ↔ a ∈ l ∧ a ∉ seen := by
  induction l generalizing seen with
  | nil => simp [dedupFirstAux]
  | cons x xs ih =>
    simp only [dedupFirstAux]
    split
    · rename_i hx
      rw [ih]
      simp only [List.mem_cons]
      constructor
      · rintro ⟨h1, h2⟩; exact ⟨Or.inr h1, h2⟩
      · rintro ⟨h1 | h1, h2⟩
        · exact absurd (h1 ▸ hx) h2
        · exact ⟨h1, h2⟩
    · rename_i hx
      simp only [List.mem_cons, ih, List.mem_cons]
      constructor
      · rintro (rfl | ⟨h1, h2⟩)
        · exact ⟨Or.inl rfl, fun h => hx h⟩
        · exact ⟨Or.inr h1, fun h => h2 (Or.inr h)⟩
      · rintro ⟨rfl | h1, h2⟩
        · exact Or.inl rfl
        · by_cases hax : a = x
          · exact Or.inl hax
          · refine Or.inr ⟨h1, fun h => ?_⟩
            rcases h with h | h
            · exact hax h
            · exact h2 h

theorem mem_dedupFirst [DecidableEq α] (a : α) (l : List α) :
    a ∈ dedupFirst l ↔ a ∈ l := by
  simp [dedupFirst, mem_dedupFirstAux]

theorem shiftPrevAux_fst_mem [DecidableEq β] (key : α → β) (val : α → ℚ)
    (p : α × Option ℚ) (seen l : List α) (h : p ∈ shiftPrevAux key val seen l) :
    p.1 ∈ l := by
  induction l generalizing seen with
  | nil => simp [shiftPrevAux] at h
  | cons x xs ih =>
    simp only [shiftPrevAux, List.mem_cons] at h
    rcases h with rfl | h
    · simp
    · exact List.mem_cons_of_mem _ (ih _ h)

theorem shiftPrev_fst_mem [DecidableEq β] (key : α → β) (val : α → ℚ)
    (p : α × Option ℚ) (l : List α) (h : p ∈ shiftPrev key val l) : p.1 ∈ l :=
  shiftPrevAux_fst_mem key val p [] l h

theorem round_mono_q {a b : ℚ} (h : a ≤ b) : round a ≤ round b := by
  rw [round_eq, round_eq]
  exact Int.floor_mono (by linarith)

theorem roundTo_mono (d : ℕ) {a b : ℚ} (h : a ≤ b) : roundTo d a ≤ roundTo d b := by
  unfold roundTo
  have hp : (0 : ℚ) < (10 : ℚ) ^ d := by positivity
  have hr : round (a * (10 : ℚ) ^ d) ≤ round (b * (10 : ℚ) ^ d) :=
    round_mono_q (by nlinarith)
  exact (div_le_div_iff_of_pos_right hp).mpr (by exact_mod_cast hr)

theorem roundTo_zero (d : ℕ) : roundTo d 0 = 0 := by
  simp [roundTo]

theorem roundTo_nonneg (d : ℕ) {q : ℚ} (h : 0 ≤ q) : 0 ≤ roundTo d q := by
  have := roundTo_mono d h
  rwa [roundTo_zero] at this

theorem roundTo_one (d : ℕ) : roundTo d 1 = 1 := by
  unfold roundTo
  have h10 : ((10 : ℚ) ^ d) = ((10 ^ d : ℤ) : ℚ) := by push_cast; ring
  rw [one_mul, h10, round_intCast]
  rw [div_self]
  positivity

theorem sum_filter_le (p : EnrichedRow → Bool) (l : List EnrichedRow)
    (h : ∀ r ∈ l, 0 ≤ r.cost) : sumCost (l.filter p) ≤ sumCost l := by
  induction l with
  | nil => simp [sumCost]
  | cons x xs ih =>
    have hx := h x (List.mem_cons_self x xs)
    have ihx := ih (fun r hr => h r (List.mem_cons_of_mem _ hr))
    simp only [List.filter_cons]
    split
    · simp only [sumCost, List.map_cons, List.sum_cons] at *
      linarith
    · simp only [sumCost, List.map_cons, List.sum_cons] at *
      linarith

theorem sumCost_nonneg (l : List EnrichedRow) (h : ∀ r ∈ l, 0 ≤ r.cost) :
    0 ≤ sumCost l := by
  apply List.sum_nonneg
  intro x hx
  obtain ⟨r, hr, rfl⟩ := List.mem_map.mp hx
  exact h r hr

/-- Every row a left join produces for `b` carries `b`'s measures. -/
theorem leftJoinRow_fields (nr : List NResourceRow) (b : NBillingRow)
    (e : EnrichedRow) (h : e ∈ leftJoinRow nr b) :
    e.cost = b.cost ∧ e.usage_qty = b.usage_qty ∧ e.unit_cost = b.unit_cost ∧
      e.invoice_month = b.invoice_month := by
  unfold leftJoinRow at h
  rcases hm : joinMatches nr b with _ | ⟨m, mrest⟩ <;> rw [hm] at h
  · simp only [List.mem_singleton] at h
    subst h
    exact ⟨rfl, rfl, rfl, rfl⟩
  · obtain ⟨r, _, rfl⟩ := List.mem_map.mp h
    exact ⟨rfl, rfl, rfl, rfl⟩

/-- Provenance of enriched rows: each carries the measures of some coerced
billing row. -/
theorem enrich_row_provenance (billing : List BillingRow) (resources : List ResourceRow)
    (es : List EnrichedRow) (h : enrich_billing billing resources = Except.ok es)
    (e : EnrichedRow) (he : e ∈ es) :
    ∃ b ∈ billing.map normalizeBillingRow, e.cost = b.cost := by
  simp only [enrich_billing] at h
  split at h
  · obtain rfl : (billing.map normalizeBillingRow).flatMap
        (leftJoinRow (resources.map normalizeResourceRow)) = es := by
      injection h
    obtain ⟨b, hb, hbe⟩ := List.mem_flatMap.mp he
    exact ⟨b, hb, (leftJoinRow_fields _ _ _ hbe).1⟩
  · cases h

theorem enrich_cost_nonneg (billing : List BillingRow) (resources : List ResourceRow)
    (es : List EnrichedRow) (h : enrich_billing billing resources = Except.ok es)
    (hc : ∀ b ∈ billing, 0 ≤ toNum b.cost) (e : EnrichedRow) (he : e ∈ es) :
    0 ≤ e.cost := by
  obtain ⟨b, hb, hbe⟩ := enrich_row_provenance billing resources es h e he
  obtain ⟨b0, hb0, rfl⟩ := List.mem_map.mp hb
  rw [hbe]
  exact hc b0 hb0

/-! ### C1: when enrichment fails -/

/-- C1 counterexample: two metadata rows whose ids both normalize to null
(`"nan"` and `" nan "`).  No non-null `resource_id` is duplicated, yet the
`m:1` validation fails, because pandas counts equal NaN keys as duplicates.
The claim's "if and only if some non-null resource_id occurs in more than one
resource-metadata row" is therefore false at this input. -/
theorem enrich_dup_null_keys_cex :
    enrich_billing []
        [{ resource_id := "nan", owner := none, env := none },
         { resource_id := " nan ", owner := none, env := none }] =
      Except.error "DataIntegrityError" ∧
    (resourceKeys
        [{ resource_id := "nan", owner := none, env := none },
         { resource_id := " nan ", owner := none, env := none }]).filter
      (fun k => k.isSome) = [] := by
  constructor <;>
    simp +decide [enrich_billing, resourceKeys, normalizeResourceRow, normalizeId,
      strStrip, trimChars, isWs]

/-- C1 (amended): `enrich()` fails with `DataIntegrityError` if and only if
the normalized `resource_id` key column of the resource-metadata table has a
duplicate — null keys included, two nulls counting as duplicates of each
other; with no such duplicate the call succeeds. -/
theorem enrich_fails_iff_duplicate_key (billing : List BillingRow)
    (resources : List ResourceRow) :
    enrich_billing billing resources = Except.error "DataIntegrityError" ↔
      ¬ (resourceKeys resources).Nodup := by
  simp only [enrich_billing, resourceKeys, List.map_map]
  split
  · rename_i h
    simp [h]
  · rename_i h
    simp [h]

/-! ### C2: join conservation -/

theorem nodup_filter_length_le_one (l : List NResourceRow) (k : Option String)
    (h : (l.map (fun r => r.resource_id)).Nodup) :
    (l.filter (fun r => r.resource_id = k)).length ≤ 1 := by
  induction l with
  | nil => simp
  | cons r rest ih =>
    simp only [List.map_cons, List.nodup_cons] at h
    obtain ⟨hr, hrest⟩ := h
    simp only [List.filter_cons]
    split
    · rename_i hk
      simp only [decide_eq_true_eq] at hk
      have : rest.filter (fun r => r.resource_id = k) = [] := by
        rw [List.filter_eq_nil_iff]
        intro x hx
        simp only [decide_eq_true_eq]
        intro hxk
        exact hr (List.mem_map.mpr ⟨x, hx, by rw [hxk, hk]⟩)
      simp [this]
    · exact le_trans (ih hrest) (by omega)

theorem joinMatches_length_le_one (nr : List NResourceRow)
    (hn : (nr.map (fun r => r.resource_id)).Nodup) (b : NBillingRow) :
    (joinMatches nr b).length ≤ 1 := by
  unfold joinMatches
  exact nodup_filter_length_le_one nr b.resource_id hn

theorem leftJoinRow_singleton (nr : List NResourceRow)
    (hn : (nr.map (fun r => r.resource_id)).Nodup) (b : NBillingRow) :
    ∃ e, leftJoinRow nr b = [e] ∧ e.cost = b.cost := by
  rcases hm : joinMatches nr b with _ | ⟨m, mrest⟩
  · refine ⟨mkUnmatched b, ?_, rfl⟩
    unfold leftJoinRow
    rw [hm]
  · have hlen := joinMatches_length_le_one nr hn b
    rw [hm] at hlen
    simp only [List.length_cons] at hlen
    have hnil : mrest = [] := by
      cases mrest with
      | nil => rfl
      | cons a c => simp at hlen
    subst hnil
    refine ⟨mkMatched b m, ?_, rfl⟩
    unfold leftJoinRow
    rw [hm]
    simp

/-- C2: with no duplicate key in metadata, enrichment succeeds, returns
exactly one enriched record per billing row, and the total of the `cost`
column is preserved from the coerced billing input. -/
theorem enrich_conserves_cost (billing : List BillingRow) (resources : List ResourceRow)
    (h : (resourceKeys resources).Nodup) :
    ∃ es, enrich_billing billing resources = Except.ok es ∧
      es.length = billing.length ∧
      sumCost es = ((billing.map normalizeBillingRow).map (fun b => b.cost)).sum := by
  have hok : enrich_billing billing resources =
      Except.ok ((billing.map normalizeBillingRow).flatMap
        (leftJoinRow (resources.map normalizeResourceRow))) := by
    unfold enrich_billing
    rw [if_pos]
    exact h
  refine ⟨_, hok, ?_⟩
  have key : ∀ nb : List NBillingRow,
      (nb.flatMap (leftJoinRow (resources.map normalizeResourceRow))).length = nb.length ∧
      sumCost (nb.flatMap (leftJoinRow (resources.map normalizeResourceRow))) =
        (nb.map (fun b => b.cost)).sum := by
    intro nb
    induction nb with
    | nil => simp [sumCost]
    | cons b rest ih =>
      obtain ⟨e, he, hec⟩ := leftJoinRow_singleton (resources.map normalizeResourceRow) h b
      simp only [List.flatMap_cons, he, List.map_cons, List.sum_cons,
        List.length_append, List.length_cons, List.length_nil, List.cons_append,
        List.nil_append]
      constructor
      · simp [ih.1]
      · simp only [sumCost, List.map_cons, List.sum_cons] at *
        rw [ih.2, hec]
  have := key (billing.map normalizeBillingRow)
  simpa using this

/-- C2 witness at a one-row billing table and empty metadata. -/
theorem enrich_conserves_cost_witness :
    ∃ es, enrich_billing c2bill [] = Except.ok es ∧
      es.length = c2bill.length ∧
      sumCost es = ((c2bill.map normalizeBillingRow).map (fun b => b.cost)).sum :=
  enrich_conserves_cost c2bill [] (by simp [resourceKeys])

/-! ### C3: owner coverage -/

/-- C3 counterexample: with `total_cost = -2` and `assigned_cost = 3` the
source returns `coverage_pct = 0` (its guard is `total_cost > 0`, not
`total_cost == 0`), while the claim's formula `assigned / total` rounded to 4
decimals gives `-1.5 ≠ 0`. -/
theorem owner_coverage_negative_total_cex :
    owner_coverage c3bill c3res "2025-01" =
      Except.ok { total_cost := -2, assigned_cost := 3, coverage_pct := 0 } ∧
    roundTo 4 ((3 : ℚ) / (-2 : ℚ)) ≠ 0 := by
  constructor
  · norm_num +decide [owner_coverage, enrich_billing, c3bill, c3res,
      normalizeBillingRow, normalizeResourceRow, normalizeId, strStrip, trimChars,
      isWs, toNum, leftJoinRow, joinMatches, mkUnmatched, mkMatched, coverageOf,
      monthRows, sumCost, Except.map, Coverage.mk.injEq]
  · norm_num [roundTo, round_eq]

/-- C3 (amended): `owner_coverage` returns the month's summed `total_cost`,
the summed `assigned_cost` over rows with a known owner, and
`coverage_pct = round4(assigned/total)` whenever `total_cost > 0` and `0.0`
otherwise (in particular whenever `total_cost == 0`); with no negative cost,
`0 ≤ coverage_pct ≤ 1`. -/
theorem owner_coverage_spec (billing : List BillingRow) (resources : List ResourceRow)
    (month : String) (df : List EnrichedRow)
    (h : enrich_billing billing resources = Except.ok df) :
    owner_coverage billing resources month = Except.ok
      { total_cost := sumCost (monthRows df month),
        assigned_cost := sumCost ((monthRows df month).filter
          (fun r => r.owner ≠ "unassigned")),
        coverage_pct :=
          if 0 < sumCost (monthRows df month) then
            roundTo 4 (sumCost ((monthRows df month).filter
              (fun r => r.owner ≠ "unassigned")) / sumCost (monthRows df month))
          else 0 } ∧
    ((∀ r ∈ df, 0 ≤ r.cost) →
      0 ≤ (coverageOf df month).coverage_pct ∧ (coverageOf df month).coverage_pct ≤ 1) := by
  constructor
  · unfold owner_coverage
    rw [h]
    rfl
  · intro hpos
    have hmon : ∀ r ∈ monthRows df month, 0 ≤ r.cost := by
      intro r hr
      exact hpos r (List.mem_filter.mp hr).1
    have hassigned : 0 ≤ sumCost ((monthRows df month).filter
        (fun r => r.owner ≠ "unassigned")) := by
      apply sumCost_nonneg
      intro r hr
      exact hmon r (List.mem_filter.mp hr).1
    have hle : sumCost ((monthRows df month).filter (fun r => r.owner ≠ "unassigned")) ≤
        sumCost (monthRows df month) := sum_filter_le _ _ hmon
    simp only [coverageOf]
    split
    · rename_i htot
      constructor
      · apply roundTo_nonneg
        positivity
      · have h1 : sumCost ((monthRows df month).filter (fun r => r.owner ≠ "unassigned")) /
            sumCost (monthRows df month) ≤ 1 := by
          rw [div_le_one htot]
          exact hle
        calc roundTo 4 _ ≤ roundTo 4 1 := roundTo_mono 4 h1
          _ = 1 := roundTo_one 4
    · exact ⟨le_refl 0, by norm_num⟩

/-- C3 witness: the amended statement at the concrete one-row dataset. -/
theorem owner_coverage_spec_witness :
    owner_coverage c2bill [] "2025-01" = Except.ok
      { total_cost := sumCost (monthRows c3wdf "2025-01"),
        assigned_cost := sumCost ((monthRows c3wdf "2025-01").filter
          (fun r => r.owner ≠ "unassigned")),
        coverage_pct :=
          if 0 < sumCost (monthRows c3wdf "2025-01") then
            roundTo 4 (sumCost ((monthRows c3wdf "2025-01").filter
              (fun r => r.owner ≠ "unassigned")) / sumCost (monthRows c3wdf "2025-01"))
          else 0 } ∧
    ((∀ r ∈ c3wdf, 0 ≤ r.cost) →
      0 ≤ (coverageOf c3wdf "2025-01").coverage_pct ∧
        (coverageOf c3wdf "2025-01").coverage_pct ≤ 1) :=
  owner_coverage_spec c2bill [] "2025-01" c3wdf (by
    norm_num +decide [enrich_billing, c2bill, c3wdf, normalizeBillingRow,
      normalizeId, strStrip, trimChars, isWs, toNum, leftJoinRow, joinMatches,
      mkUnmatched])

/-! ### C7: resource_id normalization -/

/-- C7: the code keeps a whitespace-only id as the empty string instead of
null.  `normalize_resource_ids` only maps the literal string `"nan"` to null,
although its own comment says "convert empty strings to NaN then keep as
NaN"; a value normalizing to the empty string therefore survives enrichment
as a non-null, empty `resource_id`. -/
theorem normalize_keeps_empty_string :
    normalizeId "   " = some "" ∧
    (enrich_billing c7bill []).map (fun l => l.map (fun e => e.resource_id)) =
      Except.ok [some ""] := by
  constructor
  · simp +decide [normalizeId, strStrip, trimChars, isWs]
  · simp +decide [enrich_billing, c7bill, normalizeBillingRow, normalizeId,
      strStrip, trimChars, isWs, toNum, leftJoinRow, joinMatches, mkUnmatched,
      Except.map]

/-! ### C5: idle-detector boundary -/

/-- C5 counterexample: a resource with `usage_qty = 0` and cost `500` above
the threshold `400` is NOT flagged at `usage_threshold = 0.1`, because the
scoped maximum usage is `0` and `0/0` is NaN, which compares false against
any threshold; `find_idle_resources` returns no recommendation at all. -/
theorem idle_zero_usage_not_flagged_cex :
    find_idle_resources c5bill [] (1 / 10) 400 = Except.ok [] ∧
    (400 : ℚ) < 500 ∧ (0 : ℚ) < 1 / 10 := by
  refine ⟨?_, by norm_num, by norm_num⟩
  norm_num +decide [find_idle_resources, enrich_billing, c5bill,
    normalizeBillingRow, normalizeId, strStrip, trimChars, isWs, toNum,
    leftJoinRow, joinMatches, mkUnmatched, Except.map, idleFlagged, recentRows,
    latestMonth, maxString, usageMax, maxQ, utilLT]

/-- C5 (amended): if the latest month also contains some row with positive
`usage_qty` (so the utilization denominator is positive), then a row with
`usage_qty = 0` and cost above the threshold is flagged for every positive
`usage_threshold`, and the detector emits a recommendation. -/
theorem idle_zero_usage_flagged (billing : List BillingRow)
    (resources : List ResourceRow) (ut ct : ℚ) (df : List EnrichedRow)
    (row : EnrichedRow) (hdf : enrich_billing billing resources = Except.ok df)
    (hrow : row ∈ recentRows df) (husage : row.usage_qty = 0)
    (hcost : ct < row.cost) (hut : 0 < ut)
    (humax : 0 < usageMax (recentRows df)) :
    row ∈ idleFlagged df ut ct ∧
    ∃ l, find_idle_resources billing resources ut ct = Except.ok l ∧ l ≠ [] := by
  have hflag : row ∈ idleFlagged df ut ct := by
    unfold idleFlagged
    rw [List.mem_filter]
    refine ⟨hrow, ?_⟩
    rw [Bool.and_eq_true, decide_eq_true_eq]
    refine ⟨?_, hcost⟩
    unfold utilLT
    rw [if_neg (ne_of_gt humax)]
    rw [husage, zero_div, decide_eq_true_eq]
    exact hut
  refine ⟨hflag, ?_⟩
  have hne : idleFlagged df ut ct ≠ [] := by
    intro hnil
    rw [hnil] at hflag
    exact List.not_mem_nil row hflag
  unfold find_idle_resources
  rw [hdf]
  refine ⟨_, rfl, ?_⟩
  simp only [Except.map, if_neg hne]
  intro hcontra
  injection hcontra

/-- C5 witness: the amended statement at the two-row dataset. -/
theorem idle_zero_usage_flagged_witness :
    c5row ∈ idleFlagged c5wdf (1 / 10) 400 ∧
    ∃ l, find_idle_resources c5wbill [] (1 / 10) 400 = Except.ok l ∧ l ≠ [] :=
  idle_zero_usage_flagged c5wbill [] (1 / 10) 400 c5wdf c5row
    (by norm_num +decide [enrich_billing, c5wbill, c5wdf, c5row,
      normalizeBillingRow, normalizeId, strStrip, trimChars, isWs, toNum,
      leftJoinRow, joinMatches, mkUnmatched])
    (by norm_num +decide [recentRows, latestMonth, maxString, c5wdf, c5row,
      strLt, charListLt])
    (by norm_num [c5row])
    (by norm_num [c5row])
    (by norm_num)
    (by norm_num +decide [recentRows, latestMonth, maxString, c5wdf, c5row,
      strLt, charListLt, usageMax, maxQ])

/-! ### C6: spike sign asymmetry -/

theorem spikeJoinRow_fst (latest : List EnrichedRow) (s : SpikeRow)
    (p : SpikeRow × Option ℚ) (h : p ∈ spikeJoinRow latest s) : p.1 = s := by
  unfold spikeJoinRow at h
  rcases hm : latest.filter (fun r => r.resource_id = some s.resource_id)
    with _ | ⟨m, mrest⟩ <;> rw [hm] at h
  · simp only [List.mem_singleton] at h
    rw [h]
  · obtain ⟨m2, _, rfl⟩ := List.mem_map.mp h
    rfl

theorem spikeMerged_fst_mem (df : List EnrichedRow) (t : ℚ)
    (p : SpikeRow × Option ℚ) (h : p ∈ spikeMerged df t) :
    p.1 ∈ spikeFlagged df t := by
  unfold spikeMerged at h
  obtain ⟨s, hs, hp⟩ := List.mem_flatMap.mp h
  rw [spikeJoinRow_fst (recentRows df) s p hp]
  exact hs

/-- C6 counterexample: at `threshold_pct = -1` the unit-cost *decrease* of
50% satisfies `pct_change ≥ threshold_pct` and is flagged by
`find_cost_spikes`, which emits a recommendation; the claim's universal
quantification over every `threshold_pct` is therefore false. -/
theorem spike_negative_threshold_cex :
    enrich_billing c6bill [] = Except.ok c6df ∧
    (spikeFlagged c6df (-1)).map (fun s => s.pct_change) = [-(1 / 2)] ∧
    (find_cost_spikes c6bill [] (-1)).map (fun l => l.length) = Except.ok 1 ∧
    (-(1 / 2) : ℚ) < 0 := by
  refine ⟨?_, ?_, ?_, by norm_num⟩
  · norm_num +decide [enrich_billing, c6bill, c6df, normalizeBillingRow,
      normalizeId, strStrip, trimChars, isWs, toNum, leftJoinRow, joinMatches,
      mkUnmatched]
  · norm_num +decide [spikeFlagged, spikeRowsAll, spikeAgg, c6df, dedupFirst,
      dedupFirstAux, meanUnitCost, sortLe, insertLe, spikeLe, strLe, strLt,
      charListLt, shiftPrev, shiftPrevAux, List.filterMap_cons]
  · norm_num +decide [find_cost_spikes, enrich_billing, c6bill, c6df,
      normalizeBillingRow, normalizeId, strStrip, trimChars, isWs, toNum,
      leftJoinRow, joinMatches, mkUnmatched, Except.map, spikeFlagged,
      spikeRowsAll, spikeAgg, dedupFirst, dedupFirstAux, meanUnitCost, sortLe,
      insertLe, spikeLe, strLe, strLt, charListLt, shiftPrev, shiftPrevAux,
      List.filterMap_cons, spikeMerged, spikeJoinRow, spikeEntries]

/-- C6 (amended): for every non-negative `threshold_pct`, a resource-month
whose mean unit cost decreased (negative percentage change) is never flagged
by `find_cost_spikes` — every flagged row and every emitted resource entry
has `pct_change ≥ 0` — while `unit_cost_changes` flags every candidate
resource-month whose absolute percentage change is at least the threshold
(both pipelines having already excluded rows with a zero previous unit
cost). -/
theorem spike_asymmetry_amended (billing : List BillingRow)
    (resources : List ResourceRow) (t : ℚ) (df : List EnrichedRow)
    (hdf : enrich_billing billing resources = Except.ok df) (ht : 0 ≤ t) :
    (∀ s ∈ spikeFlagged df t, 0 ≤ s.pct_change) ∧
    (∀ e ∈ spikeEntries df t, 0 ≤ e.pct_change) ∧
    (∀ out, unit_cost_changes billing resources t = Except.ok out →
      ∀ r ∈ uccRows df, t ≤ |r.pct_change| →
        { r with pct_change := roundTo 4 r.pct_change } ∈ out) := by
  have hflag : ∀ s ∈ spikeFlagged df t, 0 ≤ s.pct_change := by
    intro s hs
    unfold spikeFlagged at hs
    have := (List.mem_filter.mp hs).2
    rw [decide_eq_true_eq] at this
    linarith
  refine ⟨hflag, ?_, ?_⟩
  · intro e he
    unfold spikeEntries at he
    obtain ⟨p, hp, rfl⟩ := List.mem_map.mp he
    exact hflag p.1 (spikeMerged_fst_mem df t p hp)
  · intro out hout r hr htr
    unfold unit_cost_changes at hout
    rw [hdf] at hout
    simp only [Except.map] at hout
    injection hout with hout
    rw [← hout]
    rw [mem_sortLe]
    apply List.mem_map_of_mem
    rw [List.mem_filter]
    exact ⟨hr, by rwa [decide_eq_true_eq]⟩

/-- C6 witness: the amended statement at the concrete two-month dataset and
the default spike threshold `0.3`. -/
theorem spike_asymmetry_amended_witness :
    (∀ s ∈ spikeFlagged c6df (3 / 10), 0 ≤ s.pct_change) ∧
    (∀ e ∈ spikeEntries c6df (3 / 10), 0 ≤ e.pct_change) ∧
    (∀ out, unit_cost_changes c6bill [] (3 / 10) = Except.ok out →
      ∀ r ∈ uccRows c6df, 3 / 10 ≤ |r.pct_change| →
        { r with pct_change := roundTo 4 r.pct_change } ∈ out) :=
  spike_asymmetry_amended c6bill [] (3 / 10) c6df
    (by norm_num +decide [enrich_billing, c6bill, c6df, normalizeBillingRow,
      normalizeId, strStrip, trimChars, isWs, toNum, leftJoinRow, joinMatches,
      mkUnmatched])
    (by norm_num)

/-! ### C9: arithmetic guards -/

/-- C9 counterexample: the idle detector's utilization ratio is computed with
denominator `max(usage_qty) = 0` — the rows are not skipped (one is even
flagged, through the `-inf < threshold` comparison), contradicting the
claim that every ratio computation divides only when its denominator is
nonzero. -/
theorem idle_divzero_cex :
    enrich_billing c9bill [] = Except.ok c9df ∧
    usageMax (recentRows c9df) = 0 ∧
    (idleFlagged c9df (1 / 10) 100).length = 1 := by
  refine ⟨?_, ?_, ?_⟩
  · norm_num +decide [enrich_billing, c9bill, c9df, normalizeBillingRow,
      normalizeId, strStrip, trimChars, isWs, toNum, leftJoinRow, joinMatches,
      mkUnmatched]
  · norm_num +decide [usageMax, maxQ, recentRows, latestMonth, maxString,
      c9df, strLt, charListLt]
  · norm_num +decide [idleFlagged, usageMax, maxQ, recentRows, latestMonth,
      maxString, c9df, strLt, charListLt, utilLT]

/-- C9 (amended): the coverage, unit-cost-change and spike-detector ratio
computations are guarded — every surviving comparison row has a nonzero
previous unit cost and its percentage change is the division by that nonzero
value, and coverage is `0` whenever the month's total is not positive — but
the idle detector's utilization is unguarded: only when the scoped maximum
usage is nonzero is its flag the comparison `usage/umax < threshold`; at a
zero maximum the flag degenerates to the sign test `usage < 0` (NaN/inf
semantics of a zero-denominator float division). -/
theorem arithmetic_guards_amended (df : List EnrichedRow) (month : String) :
    (∀ r ∈ uccRows df, r.prev_unit_cost ≠ 0 ∧
      r.pct_change = (r.unit_cost - r.prev_unit_cost) / r.prev_unit_cost) ∧
    (∀ s ∈ spikeRowsAll df, s.prev_unit_cost ≠ 0 ∧
      s.pct_change = (s.unit_cost - s.prev_unit_cost) / s.prev_unit_cost) ∧
    (sumCost (monthRows df month) ≤ 0 → (coverageOf df month).coverage_pct = 0) ∧
    (∀ usage umax t, umax ≠ 0 → utilLT usage umax t = decide (usage / umax < t)) ∧
    (∀ usage t, utilLT usage (0 : ℚ) t = decide (usage < 0)) := by
  refine ⟨?_, ?_, ?_, ?_, ?_⟩
  · intro r hr
    unfold uccRows at hr
    obtain ⟨p, _, hp⟩ := List.mem_filterMap.mp hr
    rcases hp2 : p.2 with _ | prev <;> rw [hp2] at hp <;> dsimp only at hp
    · simp at hp
    · by_cases hz : prev ≠ 0
      · rw [if_pos hz] at hp
        injection hp with hp
        subst hp
        exact ⟨hz, rfl⟩
      · rw [if_neg hz] at hp
        cases hp
  · intro s hs
    unfold spikeRowsAll at hs
    obtain ⟨p, _, hp⟩ := List.mem_filterMap.mp hs
    rcases hp2 : p.2 with _ | prev <;> rw [hp2] at hp <;> dsimp only at hp
    · simp at hp
    · by_cases hz : prev ≠ 0
      · rw [if_pos hz] at hp
        injection hp with hp
        subst hp
        exact ⟨hz, rfl⟩
      · rw [if_neg hz] at hp
        cases hp
  · intro htot
    simp only [coverageOf]
    rw [if_neg (by linarith)]
  · intro usage umax t h
    unfold utilLT
    rw [if_neg h]
  · intro usage t
    unfold utilLT
    rw [if_pos rfl]

/-- C9 witness: the amended statement at the concrete frame `c9df`. -/
theorem arithmetic_guards_amended_witness :
    (∀ r ∈ uccRows c9df, r.prev_unit_cost ≠ 0 ∧
      r.pct_change = (r.unit_cost - r.prev_unit_cost) / r.prev_unit_cost) ∧
    (∀ s ∈ spikeRowsAll c9df, s.prev_unit_cost ≠ 0 ∧
      s.pct_change = (s.unit_cost - s.prev_unit_cost) / s.prev_unit_cost) ∧
    (sumCost (monthRows c9df "2099-01") ≤ 0 →
      (coverageOf c9df "2099-01").coverage_pct = 0) ∧
    (∀ usage umax t, umax ≠ 0 → utilLT usage umax t = decide (usage / umax < t)) ∧
    (∀ usage t, utilLT usage (0 : ℚ) t = decide (usage < 0)) :=
  arithmetic_guards_amended c9df "2099-01"

/-! ### C4: savings bounds -/

theorem recentRows_subset (df : List EnrichedRow) (r : EnrichedRow)
    (h : r ∈ recentRows df) : r ∈ df := by
  unfold recentRows at h
  rcases hm : latestMonth df with _ | m <;> rw [hm] at h
  · cases h
  · exact (List.mem_filter.mp h).1

theorem spikeMerged_snd (df : List EnrichedRow) (t : ℚ) (p : SpikeRow × Option ℚ)
    (h : p ∈ spikeMerged df t) :
    p.2 = none ∨ ∃ m ∈ recentRows df, p.2 = some m.cost := by
  unfold spikeMerged at h
  obtain ⟨s, _, hp⟩ := List.mem_flatMap.mp h
  unfold spikeJoinRow at hp
  rcases hm : (recentRows df).filter (fun r => r.resource_id = some s.resource_id)
    with _ | ⟨m, mrest⟩ <;> rw [hm] at hp
  · simp only [List.mem_singleton] at hp
    rw [hp]
    exact Or.inl rfl
  · obtain ⟨m2, hm2, rfl⟩ := List.mem_map.mp hp
    refine Or.inr ⟨m2, ?_, rfl⟩
    have : m2 ∈ (recentRows df).filter (fun r => r.resource_id = some s.resource_id) := by
      rw [hm]
      exact hm2
    exact (List.mem_filter.mp this).1

/-- C4 counterexample.  At the default spike threshold, a unit-cost increase
of 300% produces a spike entry with `potential_savings = 150` above its
`current_monthly_cost = 100` (the heuristic `cost × pct × 0.5` exceeds `cost`
once `pct > 2`); and with a negative cost threshold, the idle detector emits
an entry with `potential_savings = -70 < 0`.  Both refute the claimed bound
`0 ≤ potential_savings ≤ current_monthly_cost`. -/
theorem savings_bounds_cex :
    enrich_billing c4bill [] = Except.ok c4df ∧
    (spikeEntries c4df (3 / 10)).map
      (fun e => (e.current_monthly_cost, e.potential_savings)) =
      [(some 100, some 150)] ∧
    ¬ ((150 : ℚ) ≤ 100) ∧
    enrich_billing c4bill2 [] = Except.ok c4df2 ∧
    (idleEntries c4df2 (1 / 10) (-200)).map (fun e => e.potential_savings) =
      [-70] ∧
    ((-70 : ℚ) < 0) := by
  refine ⟨?_, ?_, by norm_num, ?_, ?_, by norm_num⟩
  · norm_num +decide [enrich_billing, c4bill, c4df, normalizeBillingRow,
      normalizeId, strStrip, trimChars, isWs, toNum, leftJoinRow, joinMatches,
      mkUnmatched]
  · norm_num +decide [spikeEntries, spikeMerged, spikeJoinRow, spikeFlagged,
      spikeRowsAll, spikeAgg, c4df, dedupFirst, dedupFirstAux, meanUnitCost, sortLe, insertLe,
      spikeLe, strLe, strLt, charListLt, shiftPrev, shiftPrevAux,
      List.filterMap_cons, recentRows, latestMonth, maxString, roundTo, round_eq]
  · norm_num +decide [enrich_billing, c4bill2, c4df2, normalizeBillingRow,
      normalizeId, strStrip, trimChars, isWs, toNum, leftJoinRow, joinMatches,
      mkUnmatched]
  · norm_num +decide [idleEntries, idleKeys, idleGroup, idleGroupCost,
      idleGroupUtil, idleFlagged, usageMax, maxQ, recentRows, latestMonth,
      maxString, c4df2, strLt, charListLt, utilLT, dedupFirst, dedupFirstAux,
      sumCost, List.filterMap_cons, roundTo, round_eq]

/-- C4 (amended): over data with non-negative costs, every idle entry
satisfies `0 ≤ potential_savings ≤ current_monthly_cost`; every spike entry
either has null cost fields (no latest-month row) or carries the rounded
latest cost `c ≥ 0` and savings `round2(c × pct × 0.5)`, which are
non-negative for every non-negative threshold and bounded by the current
cost whenever `pct_change ≤ 2`. -/
theorem savings_bounds_amended (df : List EnrichedRow) (ut ct tp : ℚ)
    (hc : ∀ r ∈ df, 0 ≤ r.cost) (htp : 0 ≤ tp) :
    (∀ e ∈ idleEntries df ut ct,
      0 ≤ e.potential_savings ∧ e.potential_savings ≤ e.current_monthly_cost) ∧
    (∀ e ∈ spikeEntries df tp,
      (e.current_monthly_cost = none ∧ e.potential_savings = none) ∨
      ∃ c, 0 ≤ c ∧ e.current_monthly_cost = some (roundTo 2 c) ∧
        e.potential_savings = some (roundTo 2 (c * e.pct_change * (1 / 2))) ∧
        0 ≤ roundTo 2 (c * e.pct_change * (1 / 2)) ∧
        (e.pct_change ≤ 2 →
          roundTo 2 (c * e.pct_change * (1 / 2)) ≤ roundTo 2 c)) := by
  constructor
  · intro e he
    unfold idleEntries at he
    obtain ⟨k, hk, rfl⟩ := List.mem_map.mp he
    have hgc : 0 ≤ idleGroupCost (idleFlagged df ut ct) k := by
      apply sumCost_nonneg
      intro r hr
      unfold idleGroup at hr
      have h1 : r ∈ idleFlagged df ut ct := (List.mem_filter.mp hr).1
      unfold idleFlagged at h1
      have h2 : r ∈ recentRows df := (List.mem_filter.mp h1).1
      exact hc r (recentRows_subset df r h2)
    constructor
    · exact roundTo_nonneg 2 (by positivity)
    · exact roundTo_mono 2 (by linarith)
  · intro e he
    unfold spikeEntries at he
    obtain ⟨p, hp, rfl⟩ := List.mem_map.mp he
    have hpct : 0 ≤ p.1.pct_change := by
      have h1 := spikeMerged_fst_mem df tp p hp
      unfold spikeFlagged at h1
      have h2 := (List.mem_filter.mp h1).2
      rw [decide_eq_true_eq] at h2
      linarith
    rcases spikeMerged_snd df tp p hp with h2 | ⟨m, hm, h2⟩
    · rw [h2]
      exact Or.inl ⟨rfl, rfl⟩
    · have hc2 : 0 ≤ m.cost := hc m (recentRows_subset df m hm)
      rw [h2]
      refine Or.inr ⟨m.cost, hc2, rfl, rfl, roundTo_nonneg 2 (by positivity), ?_⟩
      intro hple
      exact roundTo_mono 2 (by nlinarith)

/-- C4 witness: the amended statement at the non-negative frame `c4wdf`,
where both detectors produce an entry (one flagged idle resource and one
flagged spike with `pct_change = 1 ≤ 2`), so both bound clauses are
exercised at a concrete entry: the two leading conjuncts certify the entry
lists are nonempty. -/
theorem savings_bounds_amended_witness :
    (idleEntries c4wdf (1 / 10) 100).length = 1 ∧
    (spikeEntries c4wdf (3 / 10)).length = 1 ∧
    (∀ e ∈ idleEntries c4wdf (1 / 10) 100,
      0 ≤ e.potential_savings ∧ e.potential_savings ≤ e.current_monthly_cost) ∧
    (∀ e ∈ spikeEntries c4wdf (3 / 10),
      (e.current_monthly_cost = none ∧ e.potential_savings = none) ∨
      ∃ c, 0 ≤ c ∧ e.current_monthly_cost = some (roundTo 2 c) ∧
        e.potential_savings = some (roundTo 2 (c * e.pct_change * (1 / 2))) ∧
        0 ≤ roundTo 2 (c * e.pct_change * (1 / 2)) ∧
        (e.pct_change ≤ 2 →
          roundTo 2 (c * e.pct_change * (1 / 2)) ≤ roundTo 2 c)) :=
  have h := savings_bounds_amended c4wdf (1 / 10) 100 (3 / 10)
    (by
      intro r hr
      simp only [c4wdf, List.mem_cons, List.not_mem_nil, or_false] at hr
      rcases hr with rfl | rfl | rfl <;> norm_num)
    (by norm_num)
  ⟨by
    norm_num +decide [idleEntries, idleKeys, idleFlagged, usageMax, maxQ,
      recentRows, latestMonth, maxString, c4wdf, strLt, charListLt, utilLT,
      dedupFirst, dedupFirstAux],
   by
    norm_num +decide [spikeEntries, spikeMerged, spikeJoinRow, spikeFlagged,
      spikeRowsAll, spikeAgg, c4wdf, dedupFirst, dedupFirstAux, meanUnitCost,
      sortLe, insertLe, spikeLe, strLe, strLt, charListLt, shiftPrev,
      shiftPrevAux, List.filterMap_cons, recentRows, latestMonth, maxString],
   h.1, h.2⟩

/-! ### C10: spike join multiplicity -/

theorem spikeJoinRow_length (latest : List EnrichedRow) (s : SpikeRow) :
    (spikeJoinRow latest s).length =
      max 1 (latest.filter (fun r => r.resource_id = some s.resource_id)).length := by
  unfold spikeJoinRow
  rcases hm : latest.filter (fun r => r.resource_id = some s.resource_id)
    with _ | ⟨m, mrest⟩ <;> rw [hm]
  · simp
  · simp only [List.map_cons, List.length_cons, List.length_map]
    omega

theorem flatMap_filter_rid_length (latest : List EnrichedRow) (rid : String)
    (sl : List SpikeRow) :
    ((sl.flatMap (spikeJoinRow latest)).filter
      (fun p => p.1.resource_id = rid)).length =
      (sl.filter (fun s => s.resource_id = rid)).length *
        max 1 (latest.filter (fun r => r.resource_id = some rid)).length := by
  induction sl with
  | nil => simp
  | cons s rest ih =>
    rw [List.flatMap_cons, List.filter_append, List.length_append, ih,
      List.filter_cons]
    by_cases hs : s.resource_id = rid
    · have hall : (spikeJoinRow latest s).filter (fun p => p.1.resource_id = rid) =
          spikeJoinRow latest s := by
        apply List.filter_eq_self.mpr
        intro p hp
        rw [decide_eq_true_eq, spikeJoinRow_fst latest s p hp]
        exact hs
      rw [hall, spikeJoinRow_length, hs]
      rw [if_pos (by simp)]
      simp only [List.length_cons]
      ring
    · have hnone : (spikeJoinRow latest s).filter (fun p => p.1.resource_id = rid) =
          [] := by
        apply List.filter_eq_nil_iff.mpr
        intro p hp
        rw [decide_eq_true_eq, spikeJoinRow_fst latest s p hp]
        exact hs
      rw [hnone, if_neg (by simp [hs])]
      simp

theorem flatMap_savings_sum (latest : List EnrichedRow) (sl : List SpikeRow) :
    ((sl.flatMap (spikeJoinRow latest)).map (fun p =>
      match p.2 with
      | some c => c * p.1.pct_change
      | none => 0)).sum =
      (sl.map (fun s => s.pct_change *
        sumCost (latest.filter (fun r => r.resource_id = some s.resource_id)))).sum := by
  induction sl with
  | nil => simp
  | cons s rest ih =>
    rw [List.flatMap_cons, List.map_append, List.sum_append, ih, List.map_cons,
      List.sum_cons]
    congr 1
    unfold spikeJoinRow
    rcases hm : latest.filter (fun r => r.resource_id = some s.resource_id)
      with _ | ⟨m, mrest⟩ <;> rw [hm] <;> dsimp only
    · simp [sumCost]
    · rw [List.map_map]
      have hcomp : ((fun p : SpikeRow × Option ℚ =>
            match p.2 with
            | some c => c * p.1.pct_change
            | none => 0) ∘ fun m : EnrichedRow => (s, some m.cost)) =
          fun m : EnrichedRow => m.cost * s.pct_change := rfl
      rw [hcomp]
      rw [List.sum_map_mul_right]
      unfold sumCost
      ring

/-- C10: in `find_cost_spikes`, each flagged row is left-joined on
`resource_id` alone to the globally-latest month's rows.  For each resource
id: with `k ≥ 1` latest-month rows the entries for that id number
`flagged × k`; with no latest-month row they number `flagged`, each with null
cost and savings; and the raw savings total decomposes as one term
`pct_change × (summed latest cost of that resource)` per flagged row — a
resource with `k` latest rows contributes `k` cost terms. -/
theorem spike_join_multiplicity (df : List EnrichedRow) (t : ℚ) (rid : String) :
    (((recentRows df).filter (fun r => r.resource_id = some rid)).length ≠ 0 →
      ((spikeEntries df t).filter (fun e => e.resource_id = rid)).length =
        ((spikeFlagged df t).filter (fun s => s.resource_id = rid)).length *
          ((recentRows df).filter (fun r => r.resource_id = some rid)).length) ∧
    (((recentRows df).filter (fun r => r.resource_id = some rid)).length = 0 →
      ((spikeEntries df t).filter (fun e => e.resource_id = rid)).length =
        ((spikeFlagged df t).filter (fun s => s.resource_id = rid)).length ∧
      ∀ e ∈ (spikeEntries df t).filter (fun e => e.resource_id = rid),
        e.current_monthly_cost = none ∧ e.potential_savings = none) ∧
    spikeRawSavings df t = (1 / 2) *
      ((spikeFlagged df t).map (fun s => s.pct_change *
        sumCost ((recentRows df).filter (fun r => r.resource_id = some s.resource_id)))).sum := by
  have hentlen : ((spikeEntries df t).filter (fun e => e.resource_id = rid)).length =
      ((spikeMerged df t).filter (fun p => p.1.resource_id = rid)).length := by
    unfold spikeEntries
    rw [List.filter_map]
    rw [List.length_map]
    rfl
  refine ⟨?_, ?_, ?_⟩
  · intro hk
    rw [hentlen]
    unfold spikeMerged
    rw [flatMap_filter_rid_length]
    congr 1
    omega
  · intro hk
    constructor
    · rw [hentlen]
      unfold spikeMerged
      rw [flatMap_filter_rid_length, hk]
      simp
    · intro e he
      have hrid := (List.mem_filter.mp he).2
      rw [decide_eq_true_eq] at hrid
      have he2 := (List.mem_filter.mp he).1
      unfold spikeEntries at he2
      obtain ⟨p, hp, rfl⟩ := List.mem_map.mp he2
      unfold spikeMerged at hp
      obtain ⟨s, _, hps⟩ := List.mem_flatMap.mp hp
      have hfst := spikeJoinRow_fst (recentRows df) s p hps
      have hsrid : s.resource_id = rid := by
        simp only at hrid
        rw [← hfst]
        exact hrid
      have hfe : (recentRows df).filter (fun r => r.resource_id = some s.resource_id) = [] := by
        rw [hsrid]
        exact List.length_eq_zero.mp hk
      unfold spikeJoinRow at hps
      rw [hfe] at hps
      simp only [List.mem_singleton] at hps
      rw [hps]
      exact ⟨rfl, rfl⟩
  · unfold spikeRawSavings spikeMerged
    rw [flatMap_savings_sum]
    ring

/-- C10 witness: the statement at the concrete spike dataset `c4df` and
resource id `"r"`, which has one row in the globally-latest month — the
antecedent of the multiplicity clause is discharged concretely. -/
theorem spike_join_multiplicity_witness :
    (((spikeEntries c4df (3 / 10)).filter (fun e => e.resource_id = "r")).length =
      ((spikeFlagged c4df (3 / 10)).filter (fun s => s.resource_id = "r")).length *
        ((recentRows c4df).filter (fun r => r.resource_id = some "r")).length) ∧
    spikeRawSavings c4df (3 / 10) = (1 / 2) *
      ((spikeFlagged c4df (3 / 10)).map (fun s => s.pct_change *
        sumCost ((recentRows c4df).filter (fun r => r.resource_id = some s.resource_id)))).sum :=
  ⟨(spike_join_multiplicity c4df (3 / 10) "r").1
    (by norm_num +decide [recentRows, latestMonth, maxString, c4df, strLt,
      charListLt]),
   (spike_join_multiplicity c4df (3 / 10) "r").2.2⟩

/-! ### C8: the recommendation aggregator -/

theorem find_idle_resources_len (b : List BillingRow) (r : List ResourceRow)
    (ut ct : ℚ) (l : List Recommendation)
    (h : find_idle_resources b r ut ct = Except.ok l) : l.length ≤ 1 := by
  unfold find_idle_resources at h
  cases henr : enrich_billing b r <;> rw [henr] at h <;>
    simp only [Except.map] at h
  · cases h
  · injection h with h
    rw [← h]
    split <;> simp

theorem find_cost_spikes_len (b : List BillingRow) (r : List ResourceRow)
    (t : ℚ) (l : List Recommendation)
    (h : find_cost_spikes b r t = Except.ok l) : l.length ≤ 1 := by
  unfold find_cost_spikes at h
  cases henr : enrich_billing b r <;> rw [henr] at h <;>
    simp only [Except.map] at h
  · cases h
  · injection h with h
    rw [← h]
    split <;> simp

theorem find_tagging_gaps_len (b : List BillingRow) (r : List ResourceRow)
    (l : List Recommendation)
    (h : find_tagging_gaps b r = Except.ok l) : l.length ≤ 1 := by
  unfold find_tagging_gaps at h
  cases henr : enrich_billing b r <;> rw [henr] at h <;>
    simp only [Except.map] at h
  · cases h
  · injection h with h
    rw [← h]
    split <;> simp

/-- The number of recommendations `get_all_recommendations_spec` returns is
the count of detectors whose flag stage is nonempty at the given
thresholds. -/
theorem get_all_spec_rec_length (ut ct tp : ℚ) (b : List BillingRow)
    (r : List ResourceRow) (df : List EnrichedRow)
    (hdf : enrich_billing b r = Except.ok df) :
    (get_all_recommendations_spec ut ct tp b r).map
      (fun rep => rep.recommendations.length) =
      Except.ok ((if idleFlagged df ut ct = [] then 0 else 1) +
        ((if spikeFlagged df tp = [] then 0 else 1) +
          (if untaggedRows df = [] then 0 else 1))) := by
  have hi : find_idle_resources b r ut ct = Except.ok
      (if idleFlagged df ut ct = [] then [] else
        [{ rec_type := "idle_resources",
           resources := (idleEntries df ut ct).map ResourceEntry.idle,
           estimated_savings := idleRawSavings df ut ct,
           actions := idleActions }]) := by
    unfold find_idle_resources
    rw [hdf]
    rfl
  have hs : find_cost_spikes b r tp = Except.ok
      (if spikeFlagged df tp = [] then [] else
        [{ rec_type := "cost_spikes",
           resources := (spikeEntries df tp).map ResourceEntry.spike,
           estimated_savings := spikeRawSavings df tp,
           actions := spikeActions }]) := by
    unfold find_cost_spikes
    rw [hdf]
    rfl
  have hg : find_tagging_gaps b r = Except.ok
      (if untaggedRows df = [] then [] else
        [{ rec_type := "tagging_gaps",
           resources := (taggingEntries df).map ResourceEntry.tagging,
           estimated_savings := taggingRawSavings df,
           actions := taggingActions }]) := by
    unfold find_tagging_gaps
    rw [hdf]
    rfl
  unfold get_all_recommendations_spec
  rw [hi, hs, hg]
  simp only [bind, Except.bind, pure, Except.pure, Except.map]
  split_ifs <;> simp

/-- `get_all_recommendations` always behaves like the spec-modelled variant
at the hard-coded default thresholds. -/
theorem get_all_eq_spec_defaults (b : List BillingRow) (r : List ResourceRow) :
    get_all_recommendations b r =
      get_all_recommendations_spec (1 / 10) 100 (3 / 10) b r := rfl

/-- C8 counterexample: the source's `get_all_recommendations()` takes no
thresholds and always runs the detectors at their defaults — here it emits
two recommendations (idle + tagging gaps) — while the spec-modelled variant
honouring a caller-chosen `cost_threshold = 1000` emits one (tagging only).
The claim that the aggregator accepts per-detector thresholds is false of the
code: no choice of thresholds can change its output. -/
theorem get_all_ignores_thresholds_cex :
    (get_all_recommendations c8bill []).map
      (fun rep => rep.recommendations.length) = Except.ok 2 ∧
    (get_all_recommendations_spec (1 / 10) 1000 (3 / 10) c8bill []).map
      (fun rep => rep.recommendations.length) = Except.ok 1 := by
  have hdf : enrich_billing c8bill [] = Except.ok c8df := by
    norm_num +decide [enrich_billing, c8bill, c8df, normalizeBillingRow,
      normalizeId, strStrip, trimChars, isWs, toNum, leftJoinRow, joinMatches,
      mkUnmatched]
  have hspike : spikeFlagged c8df (3 / 10) = [] := by
    norm_num +decide [spikeFlagged, spikeRowsAll, spikeAgg, c8df, dedupFirst,
      dedupFirstAux, meanUnitCost, sortLe, insertLe, spikeLe, strLe, strLt,
      charListLt, shiftPrev, shiftPrevAux, List.filterMap_cons]
  have htag : untaggedRows c8df ≠ [] := by
    norm_num +decide [untaggedRows, recentRows, latestMonth, maxString, c8df,
      strLt, charListLt]
  constructor
  · rw [get_all_eq_spec_defaults,
      get_all_spec_rec_length (1 / 10) 100 (3 / 10) c8bill [] c8df hdf]
    have hidle : idleFlagged c8df (1 / 10) 100 ≠ [] := by
      norm_num +decide [idleFlagged, usageMax, maxQ, recentRows, latestMonth,
        maxString, c8df, strLt, charListLt, utilLT]
    rw [if_neg hidle, if_pos hspike, if_neg htag]
  · rw [get_all_spec_rec_length (1 / 10) 1000 (3 / 10) c8bill [] c8df hdf]
    have hidle : idleFlagged c8df (1 / 10) 1000 = [] := by
      norm_num +decide [idleFlagged, usageMax, maxQ, recentRows, latestMonth,
        maxString, c8df, strLt, charListLt, utilLT]
    rw [if_pos hidle, if_pos hspike, if_neg htag]

/-- C8 (amended): `get_all_recommendations()` takes no threshold parameters
and runs the detectors at their hard-coded defaults (idle `0.1`/`100`, spike
`0.3`); each detector contributes 0 or 1 `Recommendation`; the returned list
is the concatenation idle ++ spikes ++ tagging of the three detectors'
outputs; and `total_estimated_monthly_savings` is the sum of the
recommendations' raw (unrounded) `estimated_savings` attributes, rounded to
2 decimals. -/
theorem get_all_structure (billing : List BillingRow) (resources : List ResourceRow)
    (li ls lg : List Recommendation)
    (hi : find_idle_resources billing resources (1 / 10) 100 = Except.ok li)
    (hs : find_cost_spikes billing resources (3 / 10) = Except.ok ls)
    (hg : find_tagging_gaps billing resources = Except.ok lg) :
    li.length ≤ 1 ∧ ls.length ≤ 1 ∧ lg.length ≤ 1 ∧
    get_all_recommendations billing resources = Except.ok
      { total_estimated_monthly_savings :=
          roundTo 2 (((li ++ ls ++ lg).map (fun r => r.estimated_savings)).sum),
        recommendations := (li ++ ls ++ lg).map Recommendation.to_dict } := by
  refine ⟨find_idle_resources_len _ _ _ _ _ hi, find_cost_spikes_len _ _ _ _ hs,
    find_tagging_gaps_len _ _ _ hg, ?_⟩
  unfold get_all_recommendations
  rw [hi, hs, hg]
  rfl

/-- C8 witness: the amended statement at the empty dataset. -/
theorem get_all_structure_witness :
    ([] : List Recommendation).length ≤ 1 ∧
    ([] : List Recommendation).length ≤ 1 ∧
    ([] : List Recommendation).length ≤ 1 ∧
    get_all_recommendations [] [] = Except.ok
      { total_estimated_monthly_savings :=
          roundTo 2 (((([] : List Recommendation) ++ [] ++ []).map
            (fun r : Recommendation => r.estimated_savings)).sum),
        recommendations := (([] : List Recommendation) ++ [] ++ []).map
          Recommendation.to_dict } :=
  get_all_structure [] [] [] [] []
    (by norm_num [find_idle_resources, enrich_billing, Except.map, idleFlagged,
      recentRows, latestMonth, maxString])
    (by norm_num [find_cost_spikes, enrich_billing, Except.map, spikeFlagged,
      spikeRowsAll, spikeAgg, dedupFirst, dedupFirstAux, sortLe, shiftPrev,
      shiftPrevAux])
    (by norm_num [find_tagging_gaps, enrich_billing, Except.map, untaggedRows,
      recentRows, latestMonth, maxString])

end FinOps
